import Mathlib

/-!
Verification of the OpenMRP explosion engine (backend/routers/mrp.py) against
its specification.  The Python code is shallowly embedded: SQLAlchemy rows
become structures, Float columns become rationals, DateTime columns become
rationals counting days, and the database session becomes explicit lists of
rows.  The recursive BOM explosion of process_bom_components carries a fuel
counter; a result of none models a computation that exceeds the fuel bound
(the source has no termination guard of its own).
-/

namespace OpenMRP

/-- Embedding of models/inventory.py InventoryItem (the columns the MRP
engine reads: id, quantity_on_hand, reorder_point). -/
structure InventoryItem where
  id : Nat
  quantity_on_hand : ℚ
  reorder_point : ℚ
deriving DecidableEq, Repr

/-- Embedding of models/bom.py BOM (columns read by the engine). -/
structure BOM where
  id : Nat
  product_id : Nat
  is_active : Bool
deriving DecidableEq, Repr

/-- Embedding of models/bom.py BOMComponent (columns read by the engine). -/
structure BOMComponent where
  bom_id : Nat
  component_id : Nat
  quantity : ℚ
deriving DecidableEq, Repr

/-- Embedding of models/production.py MPSItem (columns read by the engine). -/
structure MPSItem where
  id : Nat
  product_id : Nat
  planned_date : ℚ
  quantity : ℚ
deriving DecidableEq, Repr

/-- Embedding of models/production.py MPS together with its schedule_items
relationship. -/
structure MPS where
  id : Nat
  schedule_items : List MPSItem
deriving DecidableEq, Repr

/-- Embedding of models/production.py MRPItem: one requirement node row as
written by create_mrp_run / process_bom_components. -/
structure MRPItem where
  id : Nat
  mrp_run_id : Nat
  mps_item_id : Option Nat
  item_id : Nat
  bom_id : Option Nat
  required_date : ℚ
  gross_requirement : ℚ
  projected_on_hand : ℚ
  net_requirement : ℚ
  planned_order_release : ℚ
  planned_order_receipt : ℚ
  order_release_date : ℚ
  is_critical : Bool
  parent_id : Option Nat
deriving DecidableEq, Repr

/-- The tables the MRP router reads, standing in for the database session. -/
structure DB where
  items : List InventoryItem
  boms : List BOM
  bom_components : List BOMComponent
deriving DecidableEq, Repr

/-- Embedding of schemas/production.py MRPRunCreate (the request body of the
POST endpoint; name and description do not influence the computation). -/
structure MRPRunCreate where
  mps_id : Nat
  lead_time_factor : ℚ
  include_safety_stock : Bool
deriving DecidableEq, Repr

/-- db.query(InventoryItem).filter(InventoryItem.id == iid).first() -/
def findItem (items : List InventoryItem) (iid : Nat) : Option InventoryItem :=
  items.find? (fun it => it.id == iid)

/-- db.query(BOM).filter(BOM.product_id == pid, BOM.is_active == True).first() -/
def findActiveBOM (boms : List BOM) (pid : Nat) : Option BOM :=
  boms.find? (fun b => b.product_id == pid && b.is_active)

/-- db.query(BOMComponent).filter(BOMComponent.bom_id == bid).all() -/
def bomComponents (comps : List BOMComponent) (bid : Nat) : List BOMComponent :=
  comps.filter (fun c => c.bom_id == bid)

/-- db.query(MPS).filter(MPS.id == i).first() -/
def findMPS (table : List MPS) (i : Nat) : Option MPS :=
  table.find? (fun m => m.id == i)

/-- Embedding of calculate_release_date from mrp.py.  The InventoryItem model
(models/inventory.py) declares no lead-time column, so the hasattr check of
the source is always false, for a present item as well as for a missing one,
and the default of 1 day always applies. -/
def calculate_release_date (required_date : ℚ) (item : Option InventoryItem)
    (lead_time_factor : ℚ) : ℚ :=
  let lead_time_days : ℚ := 1
  let adjusted_lead_time := lead_time_days * lead_time_factor
  required_date - adjusted_lead_time

/-- The safety-stock expression of process_bom_components, line 243 of
mrp.py: item.reorder_point if include_safety_stock and item.reorder_point
else 0.  Python truthiness of a float is being nonzero. -/
def safetyStock (include_safety_stock : Bool) (item : InventoryItem) : ℚ :=
  if include_safety_stock ∧ item.reorder_point ≠ 0 then item.reorder_point else 0

/-- The for-loop of process_bom_components from mrp.py, one BOM component at
a time, with the recursion into a component BOM inlined as a call on that
BOM component list.  A component whose inventory item is absent is skipped
(the source continues the loop); a component with an active BOM of its own
is recursed into before the loop moves on.  The fuel argument is an artifact
of the embedding: the source recursion has no guard at all, and a none
result means the call did not finish within the fuel bound (one unit per
processed component and per BOM level).  Returns the created nodes in
creation (flush) order together with the next free node id. -/
def processComponentList (db : DB) (ltf : ℚ) (iss : Bool) :
    Nat → List BOMComponent → Nat → ℚ → ℚ → Nat → Nat →
    Option (List MRPItem × Nat)
  | 0, _, _, _, _, _, _ => none
  | Nat.succ _, [], _, _, _, _, nextId => some ([], nextId)
  | Nat.succ f, c :: rest, parentId, required_date, parent_quantity, runId, nextId =>
    match findItem db.items c.component_id with
    | none =>
        processComponentList db ltf iss f rest parentId required_date
          parent_quantity runId nextId
    | some item =>
      let gross_req := parent_quantity * c.quantity
      let safety_stock := safetyStock iss item
      let projected_on_hand := item.quantity_on_hand
      let net_req := max 0 (gross_req + safety_stock - projected_on_hand)
      let component_bom := findActiveBOM db.boms c.component_id
      let node : MRPItem :=
        { id := nextId
          mrp_run_id := runId
          mps_item_id := none
          item_id := c.component_id
          bom_id := component_bom.map (fun b => b.id)
          required_date := required_date
          gross_requirement := gross_req
          projected_on_hand := projected_on_hand
          net_requirement := net_req
          planned_order_release := net_req
          planned_order_receipt := net_req
          order_release_date := calculate_release_date required_date (some item) ltf
          is_critical := decide (0 < net_req) && decide (projected_on_hand < gross_req)
          parent_id := some parentId }
      match component_bom with
      | none =>
        match processComponentList db ltf iss f rest parentId required_date
            parent_quantity runId (nextId + 1) with
        | none => none
        | some (out, nid) => some (node :: out, nid)
      | some cb =>
        match processComponentList db ltf iss f (bomComponents db.bom_components cb.id)
            node.id required_date node.planned_order_release runId (nextId + 1) with
        | none => none
        | some (children, nid1) =>
          match processComponentList db ltf iss f rest parentId required_date
              parent_quantity runId nid1 with
          | none => none
          | some (out, nid2) => some (node :: (children ++ out), nid2)

/-- Embedding of process_bom_components from mrp.py: fetch the component
rows of the given BOM (line 232 of the source) and run the loop above over
them. -/
def process_bom_components (db : DB) (ltf : ℚ) (iss : Bool) (fuel : Nat)
    (bom : BOM) (parentId : Nat) (required_date parent_quantity : ℚ)
    (runId nextId : Nat) : Option (List MRPItem × Nat) :=
  processComponentList db ltf iss fuel (bomComponents db.bom_components bom.id)
    parentId required_date parent_quantity runId nextId

/-- The on-hand snapshot used for a top-level node, line 168 of mrp.py:
product.quantity_on_hand if product else 0. -/
def onHandOf (db : DB) (pid : Nat) : ℚ :=
  match findItem db.items pid with
  | some p => p.quantity_on_hand
  | none => 0

/-- The per-demand-line loop of create_mrp_run (steps 1 and 2 of the source):
for each MPS schedule item, look up the active BOM of its product, skip the
line when there is none, otherwise create the top-level node and explode its
BOM.  Node ids are handed out sequentially, modelling the flush calls. -/
def createRunItems (db : DB) (ltf : ℚ) (iss : Bool) (fuel : Nat) (runId : Nat) :
    List MPSItem → Nat → Option (List MRPItem × Nat)
  | [], nextId => some ([], nextId)
  | mi :: rest, nextId =>
    match findActiveBOM db.boms mi.product_id with
    | none => createRunItems db ltf iss fuel runId rest nextId
    | some bom =>
      let product := findItem db.items mi.product_id
      let onHand := onHandOf db mi.product_id
      let node : MRPItem :=
        { id := nextId
          mrp_run_id := runId
          mps_item_id := some mi.id
          item_id := mi.product_id
          bom_id := some bom.id
          required_date := mi.planned_date
          gross_requirement := mi.quantity
          projected_on_hand := onHand
          net_requirement := max 0 (mi.quantity - onHand)
          planned_order_release := max 0 (mi.quantity - onHand)
          planned_order_receipt := max 0 (mi.quantity - onHand)
          order_release_date := calculate_release_date mi.planned_date product ltf
          is_critical := decide (onHand < mi.quantity)
          parent_id := none }
      match process_bom_components db ltf iss fuel bom node.id mi.planned_date
          node.planned_order_release runId (nextId + 1) with
      | none => none
      | some (children, nid1) =>
        match createRunItems db ltf iss fuel runId rest nid1 with
        | none => none
        | some (out, nid2) => some (node :: (children ++ out), nid2)

/-- Outcome of the POST /mrp/ endpoint.  mpsNotFound is the 404 raised before
anything is written; outOfFuel is the embedding of a recursion that never
finishes (nothing is committed in that case either); committed carries the
node set written together with the run header by the single db.commit(). -/
inductive RunResult where
  | mpsNotFound : RunResult
  | outOfFuel : RunResult
  | committed : List MRPItem → RunResult
deriving DecidableEq, Repr

/-- Embedding of create_mrp_run from mrp.py.  runId models the id the flushed
run header receives, firstNodeId the id of the first flushed node. -/
def create_mrp_run (db : DB) (mpsTable : List MPS) (req : MRPRunCreate)
    (fuel runId firstNodeId : Nat) : RunResult :=
  match findMPS mpsTable req.mps_id with
  | none => RunResult.mpsNotFound
  | some mps =>
    match createRunItems db req.lead_time_factor req.include_safety_stock fuel
        runId mps.schedule_items firstNodeId with
    | none => RunResult.outOfFuel
    | some (nodes, _) => RunResult.committed nodes

/-- One annotated row of the GET /mrp/run_id/results response
(schemas/production.py MRPRunResultItem; the item_code and item_name strings
coming from the join carry no information the claims touch and are
omitted). -/
structure MRPRunResultItem where
  id : Nat
  item_id : Nat
  required_date : ℚ
  gross_requirement : ℚ
  projected_on_hand : ℚ
  net_requirement : ℚ
  planned_order_release : ℚ
  planned_order_receipt : ℚ
  order_release_date : ℚ
  is_critical : Bool
  parent_id : Option Nat
  level : Nat
  has_children : Bool
deriving DecidableEq, Repr

/-- The result-building loop of read_mrp_results.  The source keeps a dict
items_by_parent from parent_id to the child ids seen so far and uses only
key membership; the embedding keeps the list of parent_id values seen so
far.  Each row is emitted with level fixed at 0 (the source never updates
it) and has_children tested against the keys present at that moment, the
current row included. -/
def buildResultItems (seenParents : List (Option Nat)) :
    List MRPItem → List MRPRunResultItem
  | [] => []
  | m :: rest =>
    let seen := seenParents ++ [m.parent_id]
    { id := m.id
      item_id := m.item_id
      required_date := m.required_date
      gross_requirement := m.gross_requirement
      projected_on_hand := m.projected_on_hand
      net_requirement := m.net_requirement
      planned_order_release := m.planned_order_release
      planned_order_receipt := m.planned_order_receipt
      order_release_date := m.order_release_date
      is_critical := m.is_critical
      parent_id := m.parent_id
      level := 0
      has_children := decide (some m.id ∈ seen) } :: buildResultItems seen rest

/-- Embedding of the results assembly of read_mrp_results: the inner join
with InventoryItem keeps only rows whose item exists, in row order, and the
loop above annotates them. -/
def read_mrp_results_items (db : DB) (runItems : List MRPItem) :
    List MRPRunResultItem :=
  buildResultItems [] (runItems.filter (fun m => (findItem db.items m.item_id).isSome))

/-! ### Invariants of the explosion -/

/-- Facts holding of every component (non-top-level) node written by
process_bom_components, read off lines 242 to 268 of mrp.py. -/
def CompNodeOK (db : DB) (ltf : ℚ) (iss : Bool) (n : MRPItem) : Prop :=
  ∃ item, findItem db.items n.item_id = some item ∧
    n.projected_on_hand = item.quantity_on_hand ∧
    n.net_requirement =
      max 0 (n.gross_requirement + safetyStock iss item - n.projected_on_hand) ∧
    n.planned_order_release = n.net_requirement ∧
    n.planned_order_receipt = n.net_requirement ∧
    n.order_release_date = n.required_date - ltf ∧
    n.is_critical =
      (decide (0 < n.net_requirement) && decide (n.projected_on_hand < n.gross_requirement)) ∧
    n.mps_item_id = none ∧
    n.parent_id.isSome = true

/-- The parent-edge fact: node n was created from a component row of the BOM
with id bid, exploded for a parent whose planned_order_release is por. -/
def EdgeOK (db : DB) (bid : Nat) (por : ℚ) (n : MRPItem) : Prop :=
  ∃ comp, comp ∈ db.bom_components ∧ comp.bom_id = bid ∧
    comp.component_id = n.item_id ∧
    n.gross_requirement = por * comp.quantity

/-- Everything the induction carries about one processComponentList call on
the components of the BOM with id bid, exploded below the node with id
parentId (whose planned_order_release is pq), at required date rd. -/
structure PCLout (db : DB) (ltf : ℚ) (iss : Bool) (bid parentId : Nat)
    (rd pq : ℚ) (nextId : Nat) (out : List MRPItem) (nid : Nat) : Prop where
  le : nextId ≤ nid
  bounds : ∀ n ∈ out, nextId ≤ n.id ∧ n.id < nid
  sorted : out.Pairwise (fun a b => a.id < b.id)
  nodes : ∀ n ∈ out, CompNodeOK db ltf iss n ∧ n.required_date = rd
  edges : ∀ n ∈ out, ∀ pid, n.parent_id = some pid →
    (pid = parentId ∧ EdgeOK db bid pq n) ∨
    (∃ p, p ∈ out ∧ p.id = pid ∧ ∃ pbid, p.bom_id = some pbid ∧
      EdgeOK db pbid p.planned_order_release n)

theorem mem_filter_bomComponents {comps : List BOMComponent} {bid : Nat} :
    ∀ c ∈ bomComponents comps bid, c ∈ comps ∧ c.bom_id = bid := by
  intro c hc
  unfold bomComponents at hc
  rw [List.mem_filter] at hc
  exact ⟨hc.1, by simpa using hc.2⟩

theorem PCLout.emptyOut {db : DB} {ltf : ℚ} {iss : Bool} {bid parentId : Nat}
    {rd pq : ℚ} {nextId : Nat} :
    PCLout db ltf iss bid parentId rd pq nextId [] nextId :=
  ⟨le_refl _, by simp, by simp, by simp, by simp⟩

/-- Attaching a leaf component node (one with no BOM of its own) in front of
the output of the rest of the loop. -/
theorem PCLout.consLeaf {db : DB} {ltf : ℚ} {iss : Bool} {bid parentId : Nat}
    {rd pq : ℚ} {nextId nid : Nat} {out1 : List MRPItem} {node : MRPItem}
    (hid : node.id = nextId)
    (hnode : CompNodeOK db ltf iss node)
    (hrd : node.required_date = rd)
    (hpar : node.parent_id = some parentId)
    (hedge : EdgeOK db bid pq node)
    (h1 : PCLout db ltf iss bid parentId rd pq (nextId + 1) out1 nid) :
    PCLout db ltf iss bid parentId rd pq nextId (node :: out1) nid := by
  refine ⟨le_trans (Nat.le_succ _) h1.le, ?_, ?_, ?_, ?_⟩
  · intro n hn
    rcases List.mem_cons.mp hn with rfl | hn
    · constructor
      · rw [hid]
      · rw [hid]
        exact lt_of_lt_of_le (Nat.lt_succ_self _) h1.le
    · obtain ⟨hb1, hb2⟩ := h1.bounds n hn
      exact ⟨le_trans (Nat.le_succ _) hb1, hb2⟩
  · rw [List.pairwise_cons]
    refine ⟨fun b hb => ?_, h1.sorted⟩
    have hb1 := (h1.bounds b hb).1
    rw [hid]
    omega
  · intro n hn
    rcases List.mem_cons.mp hn with rfl | hn
    · exact ⟨hnode, hrd⟩
    · exact h1.nodes n hn
  · intro n hn pid hpid
    rcases List.mem_cons.mp hn with rfl | hn
    · rw [hpar] at hpid
      injection hpid with hpid
      exact Or.inl ⟨hpid.symm, hedge⟩
    · rcases h1.edges n hn pid hpid with hl | ⟨p, hp, hpe⟩
      · exact Or.inl hl
      · exact Or.inr ⟨p, List.mem_cons_of_mem _ hp, hpe⟩

/-- Attaching a component node that has an active BOM of its own: its
children follow it, then the output of the rest of the loop. -/
theorem PCLout.consParent {db : DB} {ltf : ℚ} {iss : Bool} {bid parentId : Nat}
    {rd pq : ℚ} {nextId nid1 nid2 : Nat} {node : MRPItem}
    {children out2 : List MRPItem} {cbid : Nat}
    (hid : node.id = nextId)
    (hnode : CompNodeOK db ltf iss node)
    (hrd : node.required_date = rd)
    (hpar : node.parent_id = some parentId)
    (hedge : EdgeOK db bid pq node)
    (hbom : node.bom_id = some cbid)
    (hch : PCLout db ltf iss cbid nextId rd node.planned_order_release
      (nextId + 1) children nid1)
    (h2 : PCLout db ltf iss bid parentId rd pq nid1 out2 nid2) :
    PCLout db ltf iss bid parentId rd pq nextId (node :: (children ++ out2)) nid2 := by
  have hle1 : nextId + 1 ≤ nid1 := hch.le
  have hle2 : nid1 ≤ nid2 := h2.le
  refine ⟨by omega, ?_, ?_, ?_, ?_⟩
  · intro n hn
    rcases List.mem_cons.mp hn with rfl | hn
    · rw [hid]; omega
    · rcases List.mem_append.mp hn with hn | hn
      · have := hch.bounds n hn; omega
      · have := h2.bounds n hn; omega
  · rw [List.pairwise_cons]
    constructor
    · intro b hb
      rw [hid]
      rcases List.mem_append.mp hb with hb | hb
      · have := (hch.bounds b hb).1; omega
      · have := (h2.bounds b hb).1; omega
    · rw [List.pairwise_append]
      refine ⟨hch.sorted, h2.sorted, fun a ha b hb => ?_⟩
      have h1 := (hch.bounds a ha).2
      have hb2 := (h2.bounds b hb).1
      omega
  · intro n hn
    rcases List.mem_cons.mp hn with rfl | hn
    · exact ⟨hnode, hrd⟩
    · rcases List.mem_append.mp hn with hn | hn
      · exact hch.nodes n hn
      · exact h2.nodes n hn
  · intro n hn pid hpid
    rcases List.mem_cons.mp hn with rfl | hn
    · rw [hpar] at hpid
      injection hpid with hpid
      exact Or.inl ⟨hpid.symm, hedge⟩
    · rcases List.mem_append.mp hn with hn | hn
      · rcases hch.edges n hn pid hpid with ⟨hpid2, he⟩ | ⟨p, hp, hpe⟩
        · refine Or.inr ⟨node, List.mem_cons_self _ _, ?_, cbid, hbom, he⟩
          rw [hid, hpid2]
        · exact Or.inr ⟨p, List.mem_cons_of_mem _ (List.mem_append_left _ hp), hpe⟩
      · rcases h2.edges n hn pid hpid with hl | ⟨p, hp, hpe⟩
        · exact Or.inl hl
        · exact Or.inr ⟨p, List.mem_cons_of_mem _ (List.mem_append_right _ hp), hpe⟩

/-- Master invariant of the component loop, by induction on fuel: whenever a
call on component rows all belonging to the BOM with id bid (exploded below
the node parentId with planned_order_release pq at required date rd)
finishes, its output satisfies PCLout. -/
theorem processComponentList_invariant (db : DB) (ltf : ℚ) (iss : Bool) :
    ∀ (f : Nat) (comps : List BOMComponent) (bid parentId : Nat) (rd pq : ℚ)
      (runId nextId : Nat) (out : List MRPItem) (nid : Nat),
      (∀ c ∈ comps, c ∈ db.bom_components ∧ c.bom_id = bid) →
      processComponentList db ltf iss f comps parentId rd pq runId nextId =
        some (out, nid) →
      PCLout db ltf iss bid parentId rd pq nextId out nid := by
  intro f
  induction f with
  | zero =>
    intro comps bid parentId rd pq runId nextId out nid _ h
    simp [processComponentList] at h
  | succ f ih =>
    intro comps bid parentId rd pq runId nextId out nid hcomps h
    cases comps with
    | nil =>
      simp only [processComponentList, Option.some.injEq, Prod.mk.injEq] at h
      obtain ⟨rfl, rfl⟩ := h
      exact PCLout.emptyOut
    | cons c rest =>
      have hcrest : ∀ x ∈ rest, x ∈ db.bom_components ∧ x.bom_id = bid :=
        fun x hx => hcomps x (List.mem_cons_of_mem _ hx)
      have hcc := hcomps c (List.mem_cons_self _ _)
      cases hfi : findItem db.items c.component_id with
      | none =>
        simp only [processComponentList, hfi] at h
        exact ih rest bid parentId rd pq runId nextId out nid hcrest h
      | some item =>
        cases hfb : findActiveBOM db.boms c.component_id with
        | none =>
          simp only [processComponentList, hfi, hfb, Option.map_none'] at h
          cases hrec : processComponentList db ltf iss f rest parentId rd pq
              runId (nextId + 1) with
          | none => simp [hrec] at h
          | some pr =>
            obtain ⟨out1, nid1⟩ := pr
            simp only [hrec, Option.some.injEq, Prod.mk.injEq] at h
            obtain ⟨rfl, rfl⟩ := h
            refine PCLout.consLeaf rfl ?_ rfl rfl ?_
              (ih rest bid parentId rd pq runId (nextId + 1) out1 nid1 hcrest hrec)
            · exact ⟨item, hfi, rfl, rfl, rfl, rfl,
                by simp [calculate_release_date], rfl, rfl, rfl⟩
            · exact ⟨c, hcc.1, hcc.2, rfl, rfl⟩
        | some cb =>
          simp only [processComponentList, hfi, hfb, Option.map_some'] at h
          cases hrec1 : processComponentList db ltf iss f
              (bomComponents db.bom_components cb.id) nextId rd
              (max 0 (pq * c.quantity + safetyStock iss item - item.quantity_on_hand))
              runId (nextId + 1) with
          | none => simp [hrec1] at h
          | some pr1 =>
            obtain ⟨children, nid1⟩ := pr1
            simp only [hrec1] at h
            cases hrec2 : processComponentList db ltf iss f rest parentId rd pq
                runId nid1 with
            | none => simp [hrec2] at h
            | some pr2 =>
              obtain ⟨out2, nid2⟩ := pr2
              simp only [hrec2, Option.some.injEq, Prod.mk.injEq] at h
              obtain ⟨rfl, rfl⟩ := h
              have hchcomps := fun x hx =>
                @mem_filter_bomComponents db.bom_components cb.id x hx
              refine PCLout.consParent rfl ?_ rfl rfl ?_ rfl
                (ih (bomComponents db.bom_components cb.id) cb.id nextId rd _
                  runId (nextId + 1) children nid1 hchcomps hrec1)
                (ih rest bid parentId rd pq runId nid1 out2 nid2 hcrest hrec2)
              · exact ⟨item, hfi, rfl, rfl, rfl, rfl,
                  by simp [calculate_release_date], rfl, rfl, rfl⟩
              · exact ⟨c, hcc.1, hcc.2, rfl, rfl⟩

theorem process_bom_components_invariant (db : DB) (ltf : ℚ) (iss : Bool)
    {f : Nat} {bom : BOM} {parentId : Nat} {rd pq : ℚ} {runId nextId : Nat}
    {out : List MRPItem} {nid : Nat}
    (h : process_bom_components db ltf iss f bom parentId rd pq runId nextId =
      some (out, nid)) :
    PCLout db ltf iss bom.id parentId rd pq nextId out nid :=
  processComponentList_invariant db ltf iss f _ bom.id parentId rd pq runId
    nextId out nid (fun c hc => mem_filter_bomComponents c hc) h

/-- Facts holding of every top-level node written by create_mrp_run, lines
161 to 175 of mrp.py, tied to its originating demand line in mis. -/
def TopNodeOK (db : DB) (ltf : ℚ) (mis : List MPSItem) (n : MRPItem) : Prop :=
  ∃ mi, mi ∈ mis ∧ n.mps_item_id = some mi.id ∧ n.item_id = mi.product_id ∧
    n.required_date = mi.planned_date ∧
    n.gross_requirement = mi.quantity ∧
    n.projected_on_hand = onHandOf db mi.product_id ∧
    n.net_requirement = max 0 (n.gross_requirement - n.projected_on_hand) ∧
    n.planned_order_release = n.net_requirement ∧
    n.planned_order_receipt = n.net_requirement ∧
    n.order_release_date = n.required_date - ltf ∧
    n.is_critical = decide (n.projected_on_hand < n.gross_requirement) ∧
    ∃ b, findActiveBOM db.boms mi.product_id = some b ∧ n.bom_id = some b.id

/-- Everything the induction carries about one createRunItems call over the
demand lines mis. -/
structure RunOut (db : DB) (ltf : ℚ) (iss : Bool) (mis : List MPSItem)
    (nextId : Nat) (out : List MRPItem) (nid : Nat) : Prop where
  le : nextId ≤ nid
  bounds : ∀ n ∈ out, nextId ≤ n.id ∧ n.id < nid
  sorted : out.Pairwise (fun a b => a.id < b.id)
  tops : ∀ n ∈ out, n.parent_id = none → TopNodeOK db ltf mis n
  compNodes : ∀ n ∈ out, n.parent_id ≠ none → CompNodeOK db ltf iss n
  edges : ∀ n ∈ out, ∀ pid, n.parent_id = some pid →
    ∃ p, p ∈ out ∧ p.id = pid ∧ n.required_date = p.required_date ∧
      ∃ pbid, p.bom_id = some pbid ∧ EdgeOK db pbid p.planned_order_release n
  count : out.countP (fun n => n.parent_id == none) =
    mis.countP (fun mi => (findActiveBOM db.boms mi.product_id).isSome)

theorem CompNodeOK.parent_isSome {db : DB} {ltf : ℚ} {iss : Bool} {n : MRPItem}
    (h : CompNodeOK db ltf iss n) : n.parent_id.isSome = true := by
  obtain ⟨item, -, -, -, -, -, -, -, -, hp⟩ := h
  exact hp

theorem TopNodeOK.mono {db : DB} {ltf : ℚ} {mi : MPSItem} {mis : List MPSItem}
    {n : MRPItem} (h : TopNodeOK db ltf mis n) : TopNodeOK db ltf (mi :: mis) n := by
  obtain ⟨mi', hmi', hrest⟩ := h
  exact ⟨mi', List.mem_cons_of_mem _ hmi', hrest⟩

theorem RunOut.emptyRun {db : DB} {ltf : ℚ} {iss : Bool} {nextId : Nat} :
    RunOut db ltf iss [] nextId [] nextId :=
  ⟨le_refl _, by simp, by simp, by simp, by simp, by simp, by simp⟩

/-- A demand line whose product has no active BOM contributes nothing. -/
theorem RunOut.skipLine {db : DB} {ltf : ℚ} {iss : Bool} {mi : MPSItem}
    {mis : List MPSItem} {nextId nid : Nat} {out : List MRPItem}
    (hmi : findActiveBOM db.boms mi.product_id = none)
    (h : RunOut db ltf iss mis nextId out nid) :
    RunOut db ltf iss (mi :: mis) nextId out nid := by
  refine ⟨h.le, h.bounds, h.sorted, fun n hn hp => (h.tops n hn hp).mono,
    h.compNodes, h.edges, ?_⟩
  rw [List.countP_cons_of_neg, h.count]
  simp [hmi]

/-- A demand line with an active BOM contributes its top node followed by
the exploded subtree. -/
theorem RunOut.consTop {db : DB} {ltf : ℚ} {iss : Bool} {mi : MPSItem}
    {mis : List MPSItem} {rd pq : ℚ} {nextId nid1 nid2 bomId : Nat}
    {node : MRPItem} {children out2 : List MRPItem}
    (hid : node.id = nextId)
    (hpar : node.parent_id = none)
    (htop : TopNodeOK db ltf (mi :: mis) node)
    (hbom : node.bom_id = some bomId)
    (hrd : node.required_date = rd)
    (hpq : node.planned_order_release = pq)
    (hmi : (findActiveBOM db.boms mi.product_id).isSome = true)
    (hch : PCLout db ltf iss bomId nextId rd pq (nextId + 1) children nid1)
    (h2 : RunOut db ltf iss mis nid1 out2 nid2) :
    RunOut db ltf iss (mi :: mis) nextId (node :: (children ++ out2)) nid2 := by
  have hle1 : nextId + 1 ≤ nid1 := hch.le
  have hle2 : nid1 ≤ nid2 := h2.le
  refine ⟨by omega, ?_, ?_, ?_, ?_, ?_, ?_⟩
  · intro n hn
    rcases List.mem_cons.mp hn with rfl | hn
    · rw [hid]; omega
    · rcases List.mem_append.mp hn with hn | hn
      · have := hch.bounds n hn; omega
      · have := h2.bounds n hn; omega
  · rw [List.pairwise_cons]
    constructor
    · intro b hb
      rw [hid]
      rcases List.mem_append.mp hb with hb | hb
      · have := (hch.bounds b hb).1; omega
      · have := (h2.bounds b hb).1; omega
    · rw [List.pairwise_append]
      refine ⟨hch.sorted, h2.sorted, fun a ha b hb => ?_⟩
      have h1 := (hch.bounds a ha).2
      have hb2 := (h2.bounds b hb).1
      omega
  · intro n hn hp
    rcases List.mem_cons.mp hn with rfl | hn
    · exact htop
    · rcases List.mem_append.mp hn with hn | hn
      · have := ((hch.nodes n hn).1).parent_isSome
        rw [hp] at this
        simp at this
      · exact (h2.tops n hn hp).mono
  · intro n hn hp
    rcases List.mem_cons.mp hn with rfl | hn
    · exact absurd hpar hp
    · rcases List.mem_append.mp hn with hn | hn
      · exact (hch.nodes n hn).1
      · exact h2.compNodes n hn hp
  · intro n hn pid hpid
    rcases List.mem_cons.mp hn with rfl | hn
    · rw [hpar] at hpid; exact absurd hpid (by simp)
    · rcases List.mem_append.mp hn with hn | hn
      · rcases hch.edges n hn pid hpid with ⟨hpid2, he⟩ | ⟨p, hp, hpe1, pbid, hpe2, hpe3⟩
        · refine ⟨node, List.mem_cons_self _ _, by rw [hid, hpid2], ?_, bomId, hbom, ?_⟩
          · rw [(hch.nodes n hn).2, hrd]
          · rw [hpq]; exact he
        · refine ⟨p, List.mem_cons_of_mem _ (List.mem_append_left _ hp), hpe1, ?_,
            pbid, hpe2, hpe3⟩
          rw [(hch.nodes n hn).2, (hch.nodes p hp).2]
      · obtain ⟨p, hp, hpe⟩ := h2.edges n hn pid hpid
        exact ⟨p, List.mem_cons_of_mem _ (List.mem_append_right _ hp), hpe⟩
  · rw [List.countP_cons_of_pos, List.countP_append, List.countP_cons_of_pos]
    · have hz : children.countP (fun n => n.parent_id == none) = 0 := by
        rw [List.countP_eq_zero]
        intro a ha
        have := ((hch.nodes a ha).1).parent_isSome
        simp only [beq_iff_eq]
        intro hnone
        rw [hnone] at this
        simp at this
      rw [hz, h2.count]
      omega
    · simpa using hmi
    · simp [hpar]

/-- Invariant of the per-demand-line loop, by induction on the schedule
lines. -/
theorem createRunItems_invariant (db : DB) (ltf : ℚ) (iss : Bool) :
    ∀ (mis : List MPSItem) (f runId nextId : Nat) (out : List MRPItem) (nid : Nat),
      createRunItems db ltf iss f runId mis nextId = some (out, nid) →
      RunOut db ltf iss mis nextId out nid := by
  intro mis
  induction mis with
  | nil =>
    intro f runId nextId out nid h
    simp only [createRunItems, Option.some.injEq, Prod.mk.injEq] at h
    obtain ⟨rfl, rfl⟩ := h
    exact RunOut.emptyRun
  | cons mi rest ih =>
    intro f runId nextId out nid h
    cases hfb : findActiveBOM db.boms mi.product_id with
    | none =>
      simp only [createRunItems, hfb] at h
      exact RunOut.skipLine hfb (ih f runId nextId out nid h)
    | some bom =>
      simp only [createRunItems, hfb] at h
      cases hrec1 : process_bom_components db ltf iss f bom nextId mi.planned_date
          (max 0 (mi.quantity - onHandOf db mi.product_id)) runId (nextId + 1) with
      | none => simp [hrec1] at h
      | some pr1 =>
        obtain ⟨children, nid1⟩ := pr1
        simp only [hrec1] at h
        cases hrec2 : createRunItems db ltf iss f runId rest nid1 with
        | none => simp [hrec2] at h
        | some pr2 =>
          obtain ⟨out2, nid2⟩ := pr2
          simp only [hrec2, Option.some.injEq, Prod.mk.injEq] at h
          obtain ⟨rfl, rfl⟩ := h
          refine RunOut.consTop rfl rfl ?_ rfl rfl rfl (by simp [hfb])
            (process_bom_components_invariant db ltf iss hrec1)
            (ih f runId nid1 out2 nid2 hrec2)
          refine ⟨mi, List.mem_cons_self _ _, rfl, rfl, rfl, rfl, rfl, rfl, rfl, rfl,
            ?_, rfl, bom, hfb, rfl⟩
          simp [calculate_release_date]

/-- Whatever create_mrp_run commits satisfies the run invariant for the MPS
it was computed from. -/
theorem create_mrp_run_invariant (db : DB) (mpsTable : List MPS)
    (req : MRPRunCreate) (fuel runId firstNodeId : Nat) (mps : MPS)
    (out : List MRPItem)
    (hmps : findMPS mpsTable req.mps_id = some mps)
    (h : create_mrp_run db mpsTable req fuel runId firstNodeId =
      RunResult.committed out) :
    ∃ nid, RunOut db req.lead_time_factor req.include_safety_stock
      mps.schedule_items firstNodeId out nid := by
  unfold create_mrp_run at h
  rw [hmps] at h
  cases hrec : createRunItems db req.lead_time_factor req.include_safety_stock
      fuel runId mps.schedule_items firstNodeId with
  | none => simp [hrec] at h
  | some pr =>
    obtain ⟨nodes, nid⟩ := pr
    simp only [hrec, RunResult.committed.injEq] at h
    subst h
    exact ⟨nid, createRunItems_invariant db req.lead_time_factor
      req.include_safety_stock mps.schedule_items fuel runId firstNodeId nodes nid hrec⟩

/-- A committed run always comes from a found MPS. -/
theorem create_mrp_run_committed_mps (db : DB) (mpsTable : List MPS)
    (req : MRPRunCreate) (fuel runId firstNodeId : Nat) (out : List MRPItem)
    (h : create_mrp_run db mpsTable req fuel runId firstNodeId =
      RunResult.committed out) :
    ∃ mps, findMPS mpsTable req.mps_id = some mps := by
  unfold create_mrp_run at h
  cases hmps : findMPS mpsTable req.mps_id with
  | none => rw [hmps] at h; exact absurd h (by simp)
  | some mps => exact ⟨mps, rfl⟩

/-- In a strictly id-sorted node list, a node is determined by its id. -/
theorem mem_eq_of_id_eq {l : List MRPItem}
    (hp : l.Pairwise (fun a b => a.id < b.id)) :
    ∀ a ∈ l, ∀ b ∈ l, a.id = b.id → a = b := by
  induction l with
  | nil => simp
  | cons x l ih =>
    rw [List.pairwise_cons] at hp
    intro a ha b hb hab
    rcases List.mem_cons.mp ha with rfl | ha2 <;> rcases List.mem_cons.mp hb with rfl | hb2
    · rfl
    · exact absurd hab (by have := hp.1 b hb2; omega)
    · exact absurd hab (by have := hp.1 a ha2; omega)
    · exact ih hp.2 a ha2 b hb2 hab

/-- The truthiness test in the safety-stock expression is numerically
redundant: the value equals a plain flag test. -/
theorem safetyStock_eq_ite (iss : Bool) (item : InventoryItem) :
    safetyStock iss item = if iss then item.reorder_point else 0 := by
  unfold safetyStock
  cases iss with
  | false => simp
  | true =>
    by_cases h : item.reorder_point = 0
    · simp [h]
    · simp [h]

/-! ### Concrete runs used to witness and refute the claims -/

/-- Product 10 (on hand 10) with an active BOM needing 2 units of component
20 (on hand 5); one demand line of 50 units due on day 100. -/
def demoDB : DB :=
  { items := [⟨10, 10, 0⟩, ⟨20, 5, 0⟩]
    boms := [⟨1, 10, true⟩]
    bom_components := [⟨1, 20, 2⟩] }

def demoMPSrec : MPS := ⟨7, [⟨100, 10, 100, 50⟩]⟩

def demoMPS : List MPS := [demoMPSrec]

def demoReq : MRPRunCreate := ⟨7, 1, false⟩

/-- The top-level node the demo run writes. -/
def demoNodeA : MRPItem :=
  ⟨1, 1, some 100, 10, some 1, 100, 50, 10, 40, 40, 40, 99, true, none⟩

/-- The component node the demo run writes. -/
def demoNodeB : MRPItem :=
  ⟨2, 1, none, 20, none, 100, 80, 5, 75, 75, 75, 99, true, some 1⟩

theorem demo_run_eval :
    create_mrp_run demoDB demoMPS demoReq 5 1 1 =
      RunResult.committed [demoNodeA, demoNodeB] := by
  norm_num [create_mrp_run, createRunItems, process_bom_components,
    processComponentList, bomComponents, findItem, findActiveBOM, findMPS,
    safetyStock, calculate_release_date, onHandOf, demoDB, demoMPSrec, demoMPS,
    demoReq, demoNodeA, demoNodeB]

/-- Like demoDB, but the product carries reorder point 5; with the
safety-stock flag set this exposes the top-level netting. -/
def c1DB : DB :=
  { items := [⟨10, 10, 5⟩, ⟨20, 5, 0⟩]
    boms := [⟨1, 10, true⟩]
    bom_components := [⟨1, 20, 2⟩] }

def c1Req : MRPRunCreate := ⟨7, 1, true⟩

theorem c1_run_eval :
    create_mrp_run c1DB demoMPS c1Req 5 1 1 =
      RunResult.committed [demoNodeA, demoNodeB] := by
  norm_num [create_mrp_run, createRunItems, process_bom_components,
    processComponentList, bomComponents, findItem, findActiveBOM, findMPS,
    safetyStock, calculate_release_date, onHandOf, c1DB, demoMPSrec, demoMPS,
    c1Req, demoNodeA, demoNodeB]

/-! ### Claim C1 -/

/-- C1 (amended): in every committed run, a component node nets
net = max 0 (gross + safety_stock - on_hand) with safety_stock the item
reorder point when the run flag is set and 0 otherwise, but a top-level
node nets net = max 0 (gross - on_hand): the safety-stock term is never
applied at top level. -/
theorem C1_net_requirement_formula (db : DB) (mpsTable : List MPS)
    (req : MRPRunCreate) (fuel runId firstNodeId : Nat) (out : List MRPItem)
    (h : create_mrp_run db mpsTable req fuel runId firstNodeId =
      RunResult.committed out) :
    ∀ n ∈ out,
      (n.parent_id = none →
        n.net_requirement = max 0 (n.gross_requirement - n.projected_on_hand)) ∧
      (n.parent_id ≠ none →
        ∃ item, findItem db.items n.item_id = some item ∧
          n.projected_on_hand = item.quantity_on_hand ∧
          n.net_requirement = max 0 (n.gross_requirement +
            (if req.include_safety_stock then item.reorder_point else 0) -
            n.projected_on_hand)) := by
  obtain ⟨mps, hmps⟩ :=
    create_mrp_run_committed_mps db mpsTable req fuel runId firstNodeId out h
  obtain ⟨nid, inv⟩ :=
    create_mrp_run_invariant db mpsTable req fuel runId firstNodeId mps out hmps h
  intro n hn
  constructor
  · intro hp
    obtain ⟨mi, hmem, hmpsid, hitemid, hrd, hgross, hpoh, hnet, hrest⟩ :=
      inv.tops n hn hp
    exact hnet
  · intro hp
    obtain ⟨item, hfi, hpoh, hnet, hrest⟩ := inv.compNodes n hn hp
    exact ⟨item, hfi, hpoh, by rw [hnet, safetyStock_eq_ite]⟩

/-- C1 counterexample: in the c1 run the safety-stock flag is set and the
product of the top-level node has reorder point 5, yet the node nets
40 = max 0 (50 - 10), not the claimed 45 = max 0 (50 + 5 - 10). -/
theorem C1_counterexample :
    create_mrp_run c1DB demoMPS c1Req 5 1 1 =
      RunResult.committed [demoNodeA, demoNodeB] ∧
    demoNodeA.parent_id = none ∧
    c1Req.include_safety_stock = true ∧
    findItem c1DB.items demoNodeA.item_id =
      some { id := 10, quantity_on_hand := 10, reorder_point := 5 } ∧
    demoNodeA.net_requirement = 40 ∧
    max 0 (demoNodeA.gross_requirement + 5 - demoNodeA.projected_on_hand) = 45 ∧
    (40 : ℚ) ≠ 45 := by
  refine ⟨c1_run_eval, rfl, rfl, rfl, rfl, ?_, ?_⟩
  · norm_num [demoNodeA]
  · norm_num

/-- C1 witness: the amended statement applied to the component node of the
demo run. -/
theorem C1_witness :
    (demoNodeB.parent_id = none →
      demoNodeB.net_requirement =
        max 0 (demoNodeB.gross_requirement - demoNodeB.projected_on_hand)) ∧
    (demoNodeB.parent_id ≠ none →
      ∃ item, findItem demoDB.items demoNodeB.item_id = some item ∧
        demoNodeB.projected_on_hand = item.quantity_on_hand ∧
        demoNodeB.net_requirement = max 0 (demoNodeB.gross_requirement +
          (if demoReq.include_safety_stock then item.reorder_point else 0) -
          demoNodeB.projected_on_hand)) :=
  C1_net_requirement_formula demoDB demoMPS demoReq 5 1 1
    [demoNodeA, demoNodeB] demo_run_eval
    demoNodeB (List.mem_cons_of_mem _ (List.mem_cons_self _ _))

/-! ### Claim C2 -/

/-- A directly self-referencing BOM graph: the active BOM of item 10 lists
item 10 itself as a component. -/
def cycDB : DB :=
  { items := [⟨10, 0, 0⟩]
    boms := [⟨1, 10, true⟩]
    bom_components := [⟨1, 10, 1⟩] }

def cycMPS : List MPS := [⟨7, [⟨100, 10, 100, 50⟩]⟩]

def cycReq : MRPRunCreate := ⟨7, 1, false⟩

theorem cyc_pcl_none :
    ∀ (f : Nat) (parentId : Nat) (rd pq : ℚ) (nextId : Nat),
      processComponentList cycDB 1 false f [⟨1, 10, 1⟩] parentId rd pq 1 nextId =
        none := by
  intro f
  induction f with
  | zero => intro parentId rd pq nextId; rfl
  | succ f ih =>
    intro parentId rd pq nextId
    have h1 : findItem cycDB.items (10 : Nat) = some ⟨10, 0, 0⟩ := rfl
    have h2 : findActiveBOM cycDB.boms (10 : Nat) = some ⟨1, 10, true⟩ := rfl
    have h3 : bomComponents cycDB.bom_components (1 : Nat) = [⟨1, 10, 1⟩] := rfl
    simp only [processComponentList, h1, h2, h3, ih]

/-- C2: the source has no cycle guard at all.  On the self-referencing BOM
the explosion never finishes within any fuel bound, so no run is ever
committed and no CycleDetected outcome exists in the code (the RunResult
type of the embedding mirrors the source: 404, divergence, or commit). -/
theorem C2_cycle_never_terminates :
    ∀ fuel : Nat, create_mrp_run cycDB cycMPS cycReq fuel 1 1 =
      RunResult.outOfFuel := by
  intro fuel
  have hmps : findMPS cycMPS (7 : Nat) = some ⟨7, [⟨100, 10, 100, 50⟩]⟩ := rfl
  have hbom : findActiveBOM cycDB.boms (10 : Nat) = some ⟨1, 10, true⟩ := rfl
  have h3 : bomComponents cycDB.bom_components (1 : Nat) = [⟨1, 10, 1⟩] := rfl
  have hrec : process_bom_components cycDB 1 false fuel ⟨1, 10, true⟩ 1 100
      (max 0 (50 - onHandOf cycDB 10)) 1 (1 + 1) = none := by
    unfold process_bom_components
    rw [show ((⟨1, 10, true⟩ : BOM)).id = (1 : Nat) from rfl, h3]
    exact cyc_pcl_none fuel 1 100 (max 0 (50 - onHandOf cycDB 10)) (1 + 1)
  unfold create_mrp_run
  rw [show cycReq.mps_id = (7 : Nat) from rfl, hmps]
  simp only [createRunItems, hbom]
  rw [show cycReq.lead_time_factor = (1 : ℚ) from rfl,
    show cycReq.include_safety_stock = false from rfl, hrec]

/-! ### Claim C3 -/

/-- C3: on the demo run node set, where node 2 is the child of node 1,
read_mrp_results annotates the child with level 0 (the source never updates
the level it initialises to 0) and the parent with has_children = false
(the dict of parent ids only holds the rows seen before the test, and the
child row comes later), contradicting the claimed level = depth and
has_children semantics. -/
theorem C3_annotation_broken :
    demoNodeB.parent_id = some demoNodeA.id ∧
    read_mrp_results_items demoDB [demoNodeA, demoNodeB] =
      [⟨1, 10, 100, 50, 10, 40, 40, 40, 99, true, none, 0, false⟩,
       ⟨2, 20, 100, 80, 5, 75, 75, 75, 99, true, some 1, 0, false⟩] := by
  constructor
  · rfl
  · rfl

/-! ### Claim C4 -/

/-- Product 10 has an active BOM whose only component row references item
20, which has no inventory record at all. -/
def c4DB : DB :=
  { items := [⟨10, 10, 0⟩]
    boms := [⟨1, 10, true⟩]
    bom_components := [⟨1, 20, 8⟩] }

theorem c4_run_eval :
    create_mrp_run c4DB demoMPS demoReq 5 1 1 =
      RunResult.committed [demoNodeA] := by
  norm_num [create_mrp_run, createRunItems, process_bom_components,
    processComponentList, bomComponents, findItem, findActiveBOM, findMPS,
    safetyStock, calculate_release_date, onHandOf, c4DB, demoMPSrec, demoMPS,
    demoReq, demoNodeA]

/-- C4 counterexample: component item 20 appears on the exploded BOM and has
no inventory record; the run does not abort, but no node for item 20 is
created either — the claim that a node with projected_on_hand 0 is created
fails. -/
theorem C4_counterexample :
    findItem c4DB.items 20 = none ∧
    bomComponents c4DB.bom_components 1 = [⟨1, 20, 8⟩] ∧
    create_mrp_run c4DB demoMPS demoReq 5 1 1 =
      RunResult.committed [demoNodeA] ∧
    [demoNodeA].all (fun n => n.item_id != 20) = true := by
  exact ⟨rfl, rfl, c4_run_eval, rfl⟩

/-- C4 (amended): a BOM component whose inventory item is missing does not
abort the run, but it is skipped entirely: the loop continues with the
remaining components and creates no node for it (and descends no further
below it). -/
theorem C4_missing_item_skips (db : DB) (ltf : ℚ) (iss : Bool) (f : Nat)
    (c : BOMComponent) (rest : List BOMComponent) (parentId : Nat)
    (rd pq : ℚ) (runId nextId : Nat)
    (hmiss : findItem db.items c.component_id = none) :
    processComponentList db ltf iss (f + 1) (c :: rest) parentId rd pq runId nextId =
      processComponentList db ltf iss f rest parentId rd pq runId nextId := by
  simp only [processComponentList, hmiss]

/-- C4 witness: the amended statement applied to the c4 component row. -/
theorem C4_witness :
    findItem c4DB.items ((⟨1, 20, 8⟩ : BOMComponent)).component_id = none ∧
    processComponentList c4DB 1 false 4 [⟨1, 20, 8⟩] 1 100 40 1 2 =
      processComponentList c4DB 1 false 3 [] 1 100 40 1 2 :=
  ⟨rfl, C4_missing_item_skips c4DB 1 false 3 ⟨1, 20, 8⟩ [] 1 100 40 1 2 rfl⟩

/-! ### Claim C5 -/

/-- C5: for every parent-to-child edge among the nodes of a committed run,
the child was created from a BOM component row of the parent recorded BOM,
and its gross requirement is the parent planned_order_release times that
component per-unit quantity. -/
theorem C5_child_gross_from_parent_release (db : DB) (mpsTable : List MPS)
    (req : MRPRunCreate) (fuel runId firstNodeId : Nat) (out : List MRPItem)
    (h : create_mrp_run db mpsTable req fuel runId firstNodeId =
      RunResult.committed out) :
    ∀ c ∈ out, ∀ p ∈ out, c.parent_id = some p.id →
      ∃ comp, comp ∈ db.bom_components ∧ p.bom_id = some comp.bom_id ∧
        comp.component_id = c.item_id ∧
        c.gross_requirement = p.planned_order_release * comp.quantity := by
  obtain ⟨mps, hmps⟩ :=
    create_mrp_run_committed_mps db mpsTable req fuel runId firstNodeId out h
  obtain ⟨nid, inv⟩ :=
    create_mrp_run_invariant db mpsTable req fuel runId firstNodeId mps out hmps h
  intro c hc p hp hedge
  obtain ⟨p2, hp2, hpid2, hrd2, pbid, hpb, comp, hcm, hcb, hci, hcg⟩ :=
    inv.edges c hc p.id hedge
  have hpp : p2 = p := mem_eq_of_id_eq inv.sorted p2 hp2 p hp hpid2
  subst hpp
  exact ⟨comp, hcm, by rw [hpb, hcb], hci, hcg⟩

/-- C5 witness: the statement applied to the edge from demoNodeA to
demoNodeB in the demo run. -/
theorem C5_witness :
    ∃ comp, comp ∈ demoDB.bom_components ∧
      demoNodeA.bom_id = some comp.bom_id ∧
      comp.component_id = demoNodeB.item_id ∧
      demoNodeB.gross_requirement = demoNodeA.planned_order_release * comp.quantity :=
  C5_child_gross_from_parent_release demoDB demoMPS demoReq 5 1 1
    [demoNodeA, demoNodeB] demo_run_eval
    demoNodeB (List.mem_cons_of_mem _ (List.mem_cons_self _ _))
    demoNodeA (List.mem_cons_self _ _) rfl

/-! ### Claim C6 -/

/-- C6 counterexample: a BOM component (item 20 of the c4 BOM) references an
item with no inventory record, yet create_mrp_run does not fail with any
typed error: it commits a nonempty node set (the source has no
ProductNotFound path at all; the component is silently skipped). -/
theorem C6_counterexample :
    findItem c4DB.items 20 = none ∧
    bomComponents c4DB.bom_components 1 = [⟨1, 20, 8⟩] ∧
    create_mrp_run c4DB demoMPS demoReq 5 1 1 =
      RunResult.committed [demoNodeA] ∧
    RunResult.committed [demoNodeA] ≠ RunResult.mpsNotFound ∧
    [demoNodeA] ≠ ([] : List MRPItem) := by
  refine ⟨rfl, rfl, c4_run_eval, ?_, ?_⟩
  · intro hx; cases hx
  · intro hx; cases hx

/-- C6 (amended): the only abort of create_mrp_run is MPSNotFound, raised
when the MPS id is unknown, in which case nothing at all is persisted; a
demand line or BOM component referencing an unknown inventory item never
raises an error (the component is skipped, a missing demand-line product is
netted as zero on hand). -/
theorem C6_unknown_mps_aborts_before_persisting (db : DB)
    (mpsTable : List MPS) (req : MRPRunCreate) (fuel runId firstNodeId : Nat)
    (hmps : findMPS mpsTable req.mps_id = none) :
    create_mrp_run db mpsTable req fuel runId firstNodeId =
      RunResult.mpsNotFound := by
  unfold create_mrp_run
  rw [hmps]

/-- C6 witness: the amended statement applied to an empty MPS table. -/
theorem C6_witness :
    findMPS [] demoReq.mps_id = none ∧
    create_mrp_run demoDB [] demoReq 5 1 1 = RunResult.mpsNotFound :=
  ⟨rfl, C6_unknown_mps_aborts_before_persisting demoDB [] demoReq 5 1 1 rfl⟩

/-! ### Claim C7 -/

/-- Component 20 carries a negative reorder point and on-hand 45 against a
gross requirement of 50; with the safety-stock flag set its net requirement
vanishes. -/
def c7DB : DB :=
  { items := [⟨10, 0, 0⟩, ⟨20, 45, -10⟩]
    boms := [⟨1, 10, true⟩]
    bom_components := [⟨1, 20, 1⟩] }

def c7NodeA : MRPItem :=
  ⟨1, 1, some 100, 10, some 1, 100, 50, 0, 50, 50, 50, 99, true, none⟩

def c7NodeB : MRPItem :=
  ⟨2, 1, none, 20, none, 100, 50, 45, 0, 0, 0, 99, false, some 1⟩

theorem c7_run_eval :
    create_mrp_run c7DB demoMPS c1Req 5 1 1 =
      RunResult.committed [c7NodeA, c7NodeB] := by
  norm_num [create_mrp_run, createRunItems, process_bom_components,
    processComponentList, bomComponents, findItem, findActiveBOM, findMPS,
    safetyStock, calculate_release_date, onHandOf, c7DB, demoMPSrec, demoMPS,
    c1Req, c7NodeA, c7NodeB]

/-- C7 counterexample: in the c7 run the component node has
projected_on_hand 45 < gross_requirement 50 and yet is_critical = false,
because the code additionally requires net_requirement > 0 and the negative
safety stock drives the net requirement to 0. -/
theorem C7_counterexample :
    create_mrp_run c7DB demoMPS c1Req 5 1 1 =
      RunResult.committed [c7NodeA, c7NodeB] ∧
    c7NodeB.projected_on_hand < c7NodeB.gross_requirement ∧
    c7NodeB.is_critical = false := by
  refine ⟨c7_run_eval, ?_, rfl⟩
  norm_num [c7NodeB]

theorem safetyStock_nonneg {iss : Bool} {item : InventoryItem}
    (h : 0 ≤ item.reorder_point) : 0 ≤ safetyStock iss item := by
  unfold safetyStock
  split
  · exact h
  · exact le_refl 0

/-- C7 (amended): a top-level node has is_critical exactly when
projected_on_hand < gross_requirement; a component node has
is_critical = (net_requirement > 0 and projected_on_hand <
gross_requirement), which coincides with projected_on_hand <
gross_requirement whenever every reorder point is nonnegative. -/
theorem C7_is_critical_semantics (db : DB) (mpsTable : List MPS)
    (req : MRPRunCreate) (fuel runId firstNodeId : Nat) (out : List MRPItem)
    (h : create_mrp_run db mpsTable req fuel runId firstNodeId =
      RunResult.committed out) :
    ∀ n ∈ out,
      (n.parent_id = none →
        (n.is_critical = true ↔ n.projected_on_hand < n.gross_requirement)) ∧
      (n.parent_id ≠ none →
        n.is_critical = (decide (0 < n.net_requirement) &&
          decide (n.projected_on_hand < n.gross_requirement))) ∧
      ((∀ it ∈ db.items, 0 ≤ it.reorder_point) →
        (n.is_critical = true ↔ n.projected_on_hand < n.gross_requirement)) := by
  obtain ⟨mps, hmps⟩ :=
    create_mrp_run_committed_mps db mpsTable req fuel runId firstNodeId out h
  obtain ⟨nid, inv⟩ :=
    create_mrp_run_invariant db mpsTable req fuel runId firstNodeId mps out hmps h
  intro n hn
  have htopIff : n.parent_id = none →
      (n.is_critical = true ↔ n.projected_on_hand < n.gross_requirement) := by
    intro hp
    obtain ⟨mi, hmem, hmpsid, hitemid, hrd, hgross, hpoh, hnet, hpor, hrcpt,
      hord, hcrit, hbom⟩ := inv.tops n hn hp
    rw [hcrit]
    exact decide_eq_true_iff
  refine ⟨htopIff, ?_, ?_⟩
  · intro hp
    obtain ⟨item, hfi, hpoh, hnet, hpor, hrcpt, hord, hcrit, hmpsid, hps⟩ :=
      inv.compNodes n hn hp
    exact hcrit
  · intro hrp
    cases hpar : n.parent_id with
    | none => exact htopIff hpar
    | some pid =>
      obtain ⟨item, hfi, hpoh, hnet, hpor, hrcpt, hord, hcrit, hmpsid, hps⟩ :=
        inv.compNodes n hn (by rw [hpar]; intro hx; cases hx)
      have hss : 0 ≤ safetyStock req.include_safety_stock item :=
        safetyStock_nonneg (hrp item (List.mem_of_find?_eq_some hfi))
      rw [hcrit]
      constructor
      · intro hx
        rw [Bool.and_eq_true, decide_eq_true_iff, decide_eq_true_iff] at hx
        exact hx.2
      · intro hlt
        rw [Bool.and_eq_true, decide_eq_true_iff, decide_eq_true_iff]
        refine ⟨?_, hlt⟩
        rw [hnet]
        rw [lt_max_iff]
        right
        linarith

/-- C7 witness: the amended statement applied to the component node of the
demo run, whose items all carry nonnegative reorder points. -/
theorem C7_witness :
    (demoNodeB.parent_id = none →
      (demoNodeB.is_critical = true ↔
        demoNodeB.projected_on_hand < demoNodeB.gross_requirement)) ∧
    (demoNodeB.parent_id ≠ none →
      demoNodeB.is_critical = (decide (0 < demoNodeB.net_requirement) &&
        decide (demoNodeB.projected_on_hand < demoNodeB.gross_requirement))) ∧
    ((∀ it ∈ demoDB.items, 0 ≤ it.reorder_point) →
      (demoNodeB.is_critical = true ↔
        demoNodeB.projected_on_hand < demoNodeB.gross_requirement)) :=
  C7_is_critical_semantics demoDB demoMPS demoReq 5 1 1
    [demoNodeA, demoNodeB] demo_run_eval
    demoNodeB (List.mem_cons_of_mem _ (List.mem_cons_self _ _))

/-! ### Claim C8 -/

/-- C8: the number of top-level nodes (null parent_id) of a committed run
equals the number of demand lines of its MPS whose product has an active
BOM; lines without one contribute nothing and raise nothing. -/
theorem C8_top_level_count (db : DB) (mpsTable : List MPS)
    (req : MRPRunCreate) (fuel runId firstNodeId : Nat) (mps : MPS)
    (out : List MRPItem)
    (hmps : findMPS mpsTable req.mps_id = some mps)
    (h : create_mrp_run db mpsTable req fuel runId firstNodeId =
      RunResult.committed out) :
    out.countP (fun n => n.parent_id == none) =
      mps.schedule_items.countP
        (fun mi => (findActiveBOM db.boms mi.product_id).isSome) := by
  obtain ⟨nid, inv⟩ :=
    create_mrp_run_invariant db mpsTable req fuel runId firstNodeId mps out hmps h
  exact inv.count

/-- C8 witness: the statement applied to the demo run (one demand line with
a BOM, two nodes of which one is top level). -/
theorem C8_witness :
    [demoNodeA, demoNodeB].countP (fun n => n.parent_id == none) =
      demoMPSrec.schedule_items.countP
        (fun mi => (findActiveBOM demoDB.boms mi.product_id).isSome) :=
  C8_top_level_count demoDB demoMPS demoReq 5 1 1 demoMPSrec
    [demoNodeA, demoNodeB] rfl demo_run_eval

/-! ### Claim C9 -/

/-- C9: the lead-time calculator always returns
required_date - 1 * lead_time_factor, for a present item as much as for a
missing one, because the inventory item model has no lead-time attribute;
hence every committed node has order_release_date = required_date -
lead_time_factor. -/
theorem C9_release_date_offset (db : DB) (mpsTable : List MPS)
    (req : MRPRunCreate) (fuel runId firstNodeId : Nat) (out : List MRPItem)
    (h : create_mrp_run db mpsTable req fuel runId firstNodeId =
      RunResult.committed out) :
    (∀ (rd : ℚ) (it : Option InventoryItem) (lf : ℚ),
      calculate_release_date rd it lf = rd - lf) ∧
    ∀ n ∈ out, n.order_release_date = n.required_date - req.lead_time_factor := by
  obtain ⟨mps, hmps⟩ :=
    create_mrp_run_committed_mps db mpsTable req fuel runId firstNodeId out h
  obtain ⟨nid, inv⟩ :=
    create_mrp_run_invariant db mpsTable req fuel runId firstNodeId mps out hmps h
  constructor
  · intro rd it lf
    simp [calculate_release_date]
  · intro n hn
    cases hpar : n.parent_id with
    | none =>
      obtain ⟨mi, hmem, hmpsid, hitemid, hrd, hgross, hpoh, hnet, hpor, hrcpt,
        hord, hcrit, hbom⟩ := inv.tops n hn hpar
      exact hord
    | some pid =>
      obtain ⟨item, hfi, hpoh, hnet, hpor, hrcpt, hord, hcrit, hmpsid, hps⟩ :=
        inv.compNodes n hn (by rw [hpar]; intro hx; cases hx)
      exact hord

/-- C9 witness: the statement applied to the demo run. -/
theorem C9_witness :
    (∀ (rd : ℚ) (it : Option InventoryItem) (lf : ℚ),
      calculate_release_date rd it lf = rd - lf) ∧
    ∀ n ∈ [demoNodeA, demoNodeB],
      n.order_release_date = n.required_date - demoReq.lead_time_factor :=
  C9_release_date_offset demoDB demoMPS demoReq 5 1 1
    [demoNodeA, demoNodeB] demo_run_eval

/-! ### Claim C10 -/

/-- C10: required dates are passed through the explosion unchanged: a
top-level node carries the planned date of its demand line, and every child
carries exactly the required date of its parent, so the date of the root
demand line reaches every node of its branch and lead-time offsets only
ever land in order_release_date. -/
theorem C10_required_date_unchanged (db : DB) (mpsTable : List MPS)
    (req : MRPRunCreate) (fuel runId firstNodeId : Nat) (mps : MPS)
    (out : List MRPItem)
    (hmps : findMPS mpsTable req.mps_id = some mps)
    (h : create_mrp_run db mpsTable req fuel runId firstNodeId =
      RunResult.committed out) :
    (∀ n ∈ out, n.parent_id = none →
      ∃ mi, mi ∈ mps.schedule_items ∧ n.mps_item_id = some mi.id ∧
        n.required_date = mi.planned_date) ∧
    ∀ c ∈ out, ∀ pid, c.parent_id = some pid →
      ∃ p, p ∈ out ∧ p.id = pid ∧ c.required_date = p.required_date := by
  obtain ⟨nid, inv⟩ :=
    create_mrp_run_invariant db mpsTable req fuel runId firstNodeId mps out hmps h
  constructor
  · intro n hn hp
    obtain ⟨mi, hmem, hmpsid, hitemid, hrd, hrest⟩ := inv.tops n hn hp
    exact ⟨mi, hmem, hmpsid, hrd⟩
  · intro c hc pid hpid
    obtain ⟨p, hp, hpid2, hrd2, hrest⟩ := inv.edges c hc pid hpid
    exact ⟨p, hp, hpid2, hrd2⟩

/-- C10 witness: the statement applied to the demo run. -/
theorem C10_witness :
    (∀ n ∈ [demoNodeA, demoNodeB], n.parent_id = none →
      ∃ mi, mi ∈ demoMPSrec.schedule_items ∧ n.mps_item_id = some mi.id ∧
        n.required_date = mi.planned_date) ∧
    ∀ c ∈ [demoNodeA, demoNodeB], ∀ pid, c.parent_id = some pid →
      ∃ p, p ∈ [demoNodeA, demoNodeB] ∧ p.id = pid ∧
        c.required_date = p.required_date :=
  C10_required_date_unchanged demoDB demoMPS demoReq 5 1 1 demoMPSrec
    [demoNodeA, demoNodeB] rfl demo_run_eval

end OpenMRP
